import Mathlib

/-!
# Verification of the Lieutenant-Terraform preference store and output search

Shallow embedding of `src/modules/config.py` (class `LieutenantTerraformConfig`)
and `src/modules/lieutenant_terraform.py` (class `LieutenantTerraform`).

Python dictionaries are modelled as association lists with Python insertion-order
semantics: setting an existing key replaces its value in place, setting a new key
appends it at the end.  JSON documents are modelled by the inductive `JVal`
(strings, booleans and objects cover every value the program stores).  The file
system is an association list from paths to file contents; a file content is
either a parsed JSON object or an `invalid` marker standing for text that
`json.loads` rejects.  The Tcl regex engine behind `tkinter.Text.search` is
external to the repository; it is modelled by the type `TclRegex` (either an
invalid pattern, or a matcher returning the start offset of the first hit at or
after a cursor), instantiated with a literal substring matcher for patterns
without metacharacters.
-/

/-- JSON-like values stored in the preference dictionaries. -/
inductive JVal where
  | str (s : String)
  | bool (b : Bool)
  | obj (entries : List (String × JVal))

/-- First value bound to `key`, as Python `d[key]` / `key in d`. -/
def lookupA {α : Type} : List (String × α) → String → Option α
  | [], _ => none
  | (k, v) :: rest, key => if k = key then some v else lookupA rest key

/-- Python `d[key] = val`: replace in place if present, else append at the end. -/
def setA {α : Type} : List (String × α) → String → α → List (String × α)
  | [], key, val => [(key, val)]
  | (k, v) :: rest, key, val =>
      if k = key then (k, val) :: rest else (k, v) :: setA rest key val

/-- Python `d.update(u)`: set each binding of `u` into `d`, left to right. -/
def dictUpdate {α : Type} (d u : List (String × α)) : List (String × α) :=
  u.foldl (fun acc kv => setA acc kv.1 kv.2) d

/-- Python dict comprehension dropping one key (used by `save`). -/
def removeKey {α : Type} : List (String × α) → String → List (String × α)
  | [], _ => []
  | (k, v) :: rest, key =>
      if k = key then removeKey rest key else (k, v) :: removeKey rest key

/-- Default `settings` category (config.py lines 41-44). -/
def defaultSettings : List (String × JVal) :=
  [("Save window geometry on exit", JVal.bool true),
   ("Window geometry", JVal.str "")]

/-- Default `cmds` category (config.py lines 37-40). -/
def defaultCmds : List (String × JVal) :=
  [("terraform", JVal.str "terraform"), ("git", JVal.str "git")]

/-- Default preference mapping built in `__init__` (config.py lines 35-44),
in Python insertion order: aliases, cmds, settings. -/
def defaultPrefs : List (String × JVal) :=
  [("aliases", JVal.obj []),
   ("cmds", JVal.obj defaultCmds),
   ("settings", JVal.obj defaultSettings)]

/-- In-memory state of `LieutenantTerraformConfig`: the resolved config-file
path (`""` meaning none, as in the source) and the preference dictionary. -/
structure CfgState where
  config_file : String
  prefs : List (String × JVal)

/-- Content of a file on disk: an object that `json.loads` accepts, or text it
rejects. -/
inductive FileContent where
  | ok (doc : List (String × JVal))
  | invalid

/-- The file system: a map from paths to file contents. -/
abbrev FS := List (String × FileContent)

/-- Config-file resolution from `__init__` (config.py lines 26-32): if the
`LT_CFG` environment variable is set its value is used directly (the source
does not check that it names an existing file); otherwise the local filename,
then the home-directory filename, are tried with `os.path.isfile`; else `""`.
`files` is the set of paths that exist as files. -/
def resolveConfigFile (lt_cfg : Option String) (home : String)
    (files : List String) : String :=
  match lt_cfg with
  | some p => p
  | none =>
      if "./.lt_cfg.json" ∈ files then "./.lt_cfg.json"
      else if (home ++ "/.lt_cfg.json") ∈ files then home ++ "/.lt_cfg.json"
      else ""

/-- First candidate path that exists as a file, else `""`. -/
def firstExisting (files : List String) : List String → String
  | [] => ""
  | c :: rest => if c ∈ files then c else firstExisting files rest

/-- The resolution rule as the claim words it: the first of [env value, local
filename, home filename] that exists as a file, else none.  Stated for
comparison with `resolveConfigFile`, which is traced from the source. -/
def resolveConfigFileSpec (lt_cfg : Option String) (home : String)
    (files : List String) : String :=
  firstExisting files (lt_cfg.toList ++ ["./.lt_cfg.json", home ++ "/.lt_cfg.json"])

/-- One category merge from `load` (config.py lines 59-64):
`if key in cfg: self.prefs[key].update(cfg[key])`.  Both sides are objects in
every reachable call; non-object values would raise in Python and are outside
the claims considered here, so the model leaves `prefs` unchanged there. -/
def mergeCat (prefs cfg : List (String × JVal)) (key : String) :
    List (String × JVal) :=
  match lookupA cfg key with
  | some (JVal.obj u) =>
      match lookupA prefs key with
      | some (JVal.obj d) => setA prefs key (JVal.obj (dictUpdate d u))
      | _ => prefs
  | _ => prefs

/-- Errors `load` can raise: `open`/`read` failure, or `json.loads` failure. -/
inductive LoadErr where
  | ioError
  | parseError
deriving DecidableEq

/-- Embeds `load` (config.py lines 48-66).  The file is read and parsed before
any mutation of `self.prefs`; on success the three categories are merged in
source order and the bookkeeping key `config_file` is set to the value of the
`self.config_file` attribute.  The returned pair is (outcome, state after the
call), with the state unchanged when an exception is raised. -/
def loadRun (fs : FS) (config_file : String) (st : CfgState) :
    Except LoadErr Unit × CfgState :=
  match lookupA fs config_file with
  | none => (Except.error LoadErr.ioError, st)
  | some FileContent.invalid => (Except.error LoadErr.parseError, st)
  | some (FileContent.ok cfg) =>
      let p1 := mergeCat st.prefs cfg "settings"
      let p2 := mergeCat p1 cfg "cmds"
      let p3 := mergeCat p2 cfg "aliases"
      (Except.ok (), { st with prefs := setA p3 "config_file" (JVal.str st.config_file) })

/-- The document `save` writes (config.py line 82): all preference entries
except the `config_file` bookkeeping key. -/
def saveDoc (prefs : List (String × JVal)) : List (String × JVal) :=
  removeKey prefs "config_file"

/-- Path `save` writes to (config.py lines 77-78): the home-directory default
when no config file was ever resolved. -/
def savePath (home : String) (config_file : String) : String :=
  if config_file = "" then home ++ "/.lt_cfg.json" else config_file

/-- Embeds `save` (config.py lines 68-83): fixes the path, then writes the
preference dictionary minus the bookkeeping key to the file system. -/
def saveRun (home : String) (st : CfgState) (fs : FS) : CfgState × FS :=
  let cf := savePath home st.config_file
  ({ st with config_file := cf }, setA fs cf (FileContent.ok (saveDoc st.prefs)))

/-- Embeds the merge loop of `update` (config.py lines 96-102): for each key of
`updates`, if the key is present in `prefs` and both old and new values are
dictionaries they are shallow-merged, otherwise the value is replaced or
added. -/
def updatePrefs (prefs updates : List (String × JVal)) : List (String × JVal) :=
  updates.foldl (fun p kv =>
    match lookupA p kv.1, kv.2 with
    | some (JVal.obj d), JVal.obj u => setA p kv.1 (JVal.obj (dictUpdate d u))
    | _, _ => setA p kv.1 kv.2) prefs

/-- Embeds `update` (config.py lines 85-106): merge the updates, then save
exactly when `save_config` is set. -/
def updateRun (home : String) (st : CfgState) (updates : List (String × JVal))
    (save_config : Bool) (fs : FS) : CfgState × FS :=
  let st1 := { st with prefs := updatePrefs st.prefs updates }
  if save_config then saveRun home st1 fs else (st1, fs)

/-- Value bound to `key` inside the object stored at category `cat` of a
preference dictionary (`prefs[cat][key]`). -/
def catLookup (prefs : List (String × JVal)) (cat key : String) : Option JVal :=
  match lookupA prefs cat with
  | some (JVal.obj d) => lookupA d key
  | _ => none

/-- Search-related state of `LieutenantTerraform`: the match list and current
index (lieutenant_terraform.py lines 35-36) and the text of the
`search_status` label (line 104).  Highlight tags and scrolling are
presentation effects carrying no further state. -/
structure SearchState where
  search_results : List (Nat × Nat)
  current_match_index : Int
  statusText : String
deriving DecidableEq

/-- The state right after `__load_main` builds the widgets: no matches, index
`-1`, label text `0/0 matches`. -/
def initSearchState : SearchState := ⟨[], -1, "0/0 matches"⟩

/-- Embeds `__update_search_status` (lines 186-193): the displayed current
match is `current_match_index + 1` when the index is non-negative, else `0`. -/
def updateSearchStatus (st : SearchState) : SearchState :=
  let total := st.search_results.length
  let current : Int :=
    if 0 ≤ st.current_match_index then st.current_match_index + 1 else 0
  { st with statusText := toString current ++ "/" ++ toString total ++ " matches" }

/-- Embeds `__next_match` (lines 152-160) followed by the status update its
`__highlight_current_match` call performs: no-op on an empty match list, else
advance the index modulo the match count.  Lean's `Int` `%` is Euclidean
remainder, matching Python `%` on a positive modulus. -/
def nextMatch (st : SearchState) : SearchState :=
  if st.search_results.isEmpty then st
  else
    updateSearchStatus
      { st with current_match_index :=
          (st.current_match_index + 1) % (st.search_results.length : Int) }

/-- Embeds `__previous_match` (lines 162-170), analogously. -/
def previousMatch (st : SearchState) : SearchState :=
  if st.search_results.isEmpty then st
  else
    updateSearchStatus
      { st with current_match_index :=
          (st.current_match_index - 1) % (st.search_results.length : Int) }

/-- Result of handing a pattern to the Tcl regex engine behind
`tkinter.Text.search`: either the pattern does not compile, or it yields a
matcher giving the start offset of the first hit at or after a cursor (and
`none` past the last hit). -/
inductive TclRegex where
  | invalid
  | valid (matchAt : Nat → Option Nat)

/-- Python exceptions that can escape the handlers considered here. -/
inductive PyExc where
  | tclError
  | attributeError
deriving DecidableEq

/-- Whether `pat` occurs literally in `buf` starting at offset `i`. -/
def isSubstringAt (buf pat : List Char) (i : Nat) : Bool :=
  List.take pat.length (List.drop i buf) == pat

/-- Behaviour of the widget search for a pattern without regex metacharacters:
the least offset at or after `cursor` where the pattern occurs literally. -/
def litMatchAt (buf pat : String) (cursor : Nat) : Option Nat :=
  (List.range (buf.length + 1)).find?
    (fun i => decide (cursor ≤ i) && isSubstringAt buf.toList pat.toList i)

/-- The Tcl engine restricted to literal patterns over a fixed buffer. -/
def litEngine (buf : String) : String → TclRegex :=
  fun pat => TclRegex.valid (litMatchAt buf pat)

/-- The while-loop of `__find` (lines 137-145): search from the cursor; on a
hit at `s`, record `(s, s + len(pattern))` — the end offset comes from the
length of the pattern string, not of the matched text — and resume the scan at
that end offset; stop when the search returns nothing.  `fuel` bounds the
iteration count (the source loop terminates because the widget search is
bounded by the end of the buffer). -/
def findFrom (matchAt : Nat → Option Nat) (patLen : Nat) :
    Nat → Nat → List (Nat × Nat)
  | 0, _ => []
  | fuel + 1, start =>
      match matchAt start with
      | none => []
      | some s => (s, s + patLen) :: findFrom matchAt patLen fuel (s + patLen)

/-- Embeds `__find` (lieutenant_terraform.py lines 122-150).  The match list
and current index are cleared first (lines 129-130); an empty pattern only
resets the status label (lines 132-134); otherwise the widget search runs.
On an invalid pattern `Text.search` raises `tkinter.TclError`; the source's
`except re.error` clause (line 149) does not match `TclError`, so the
`Invalid regex` status assignment (line 150) is unreachable and the exception
escapes `__find` — modelled by returning `some PyExc.tclError` with the status
text untouched.  On success the loop collects the matches starting at offset
0, then `__next_match` selects the first match and the status is updated. -/
def findCmd (engine : String → TclRegex) (buf pat : String) (st : SearchState) :
    Option PyExc × SearchState :=
  let st1 := { st with search_results := [], current_match_index := -1 }
  if pat = "" then
    (none, { st1 with statusText := "0/0 matches" })
  else
    match engine pat with
    | TclRegex.invalid => (some PyExc.tclError, st1)
    | TclRegex.valid matchAt =>
        let rs := findFrom matchAt pat.length (buf.length + 1) 0
        let st2 := nextMatch { st1 with search_results := rs }
        (none, updateSearchStatus st2)

/-- Outcome of `Popen` plus the read loop in `__run`: either the process
launched and finished with the given stdout lines and return code, or the
launch itself raised (e.g. `FileNotFoundError` for a missing executable). -/
inductive ProcOutcome where
  | launched (outLines : List String) (returncode : Int)
  | launchError (excText : String)

/-- Python `str` of a list of strings, as interpolated by the f-string in the
error message (quotes written with the `\x27` escape). -/
def pyStrList (cmd : List String) : String :=
  "[" ++ String.intercalate ", " (cmd.map (fun s => "\x27" ++ s ++ "\x27")) ++ "]"

/-- The error line built at line 230 for a `CalledProcessError` carrying the
argument vector and the return code. -/
def cpeMessage (cmd : List String) (rc : Int) : String :=
  "Error: Command \x27" ++ pyStrList cmd ++ "\x27 failed with return code "
    ++ toString rc ++ "\n"

/-- Embeds `__run` (lines 212-236).  The stdout lines are appended to the text
area; a non-zero return code raises `CalledProcessError`, caught at line 229,
which appends the error line with the command and the code.  A launch failure
reaches the `except Exception` clause at line 233, whose body evaluates
`e.cmd` — an attribute the raised exception does not have — so the handler
itself raises `AttributeError`: no error line is appended and the exception
escapes `__run`. -/
def runCmd (proc : ProcOutcome) (cmd : List String) (textArea : String) :
    Option PyExc × String :=
  match proc with
  | ProcOutcome.launched lines rc =>
      let ta := textArea ++ String.join lines
      if rc ≠ 0 then (none, ta ++ cpeMessage cmd rc) else (none, ta)
  | ProcOutcome.launchError _ =>
      (some PyExc.attributeError, textArea)

/-! ## Association-list lemmas -/

theorem lookupA_setA_self {α : Type} (d : List (String × α)) (k : String) (v : α) :
    lookupA (setA d k v) k = some v := by
  induction d with
  | nil => simp [setA, lookupA]
  | cons hd tl ih =>
    obtain ⟨k0, v0⟩ := hd
    by_cases h0 : k0 = k
    · simp [setA, h0, lookupA]
    · simp [setA, h0, lookupA, ih]

theorem lookupA_setA_ne {α : Type} (d : List (String × α)) (k k2 : String) (v : α)
    (h : k2 ≠ k) : lookupA (setA d k v) k2 = lookupA d k2 := by
  induction d with
  | nil => simp [setA, lookupA, Ne.symm h]
  | cons hd tl ih =>
    obtain ⟨k0, v0⟩ := hd
    by_cases h0 : k0 = k
    · subst h0
      simp [setA, lookupA, Ne.symm h]
    · simp [setA, h0, lookupA, ih]

theorem lookupA_eq_none_iff {α : Type} (d : List (String × α)) (k : String) :
    lookupA d k = none ↔ k ∉ d.map Prod.fst := by
  induction d with
  | nil => simp [lookupA]
  | cons hd tl ih =>
    obtain ⟨k0, v0⟩ := hd
    by_cases h0 : k0 = k
    · subst h0
      simp [lookupA]
    · simp [lookupA, h0, ih, Ne.symm h0]

theorem lookupA_dictUpdate_none {α : Type} (u : List (String × α)) :
    ∀ (d : List (String × α)) (k : String), lookupA u k = none →
      lookupA (dictUpdate d u) k = lookupA d k := by
  induction u with
  | nil => intro d k _; rfl
  | cons hd tl ih =>
    intro d k h
    obtain ⟨k0, v0⟩ := hd
    by_cases h0 : k0 = k
    · simp [lookupA, h0] at h
    · simp only [lookupA, if_neg h0] at h
      show lookupA (dictUpdate (setA d k0 v0) tl) k = lookupA d k
      rw [ih _ _ h, lookupA_setA_ne _ _ _ _ (Ne.symm h0)]

theorem lookupA_dictUpdate_some {α : Type} (u : List (String × α)) :
    ∀ (d : List (String × α)) (k : String) (v : α),
      (u.map Prod.fst).Nodup → lookupA u k = some v →
      lookupA (dictUpdate d u) k = some v := by
  induction u with
  | nil => intro d k v _ h; simp [lookupA] at h
  | cons hd tl ih =>
    intro d k v hnd h
    obtain ⟨k0, v0⟩ := hd
    simp only [List.map_cons, List.nodup_cons] at hnd
    by_cases h0 : k0 = k
    · subst h0
      simp only [lookupA, if_pos rfl] at h
      have hnone : lookupA tl k0 = none := (lookupA_eq_none_iff tl k0).mpr hnd.1
      show lookupA (dictUpdate (setA d k0 v0) tl) k0 = some v
      rw [lookupA_dictUpdate_none tl _ _ hnone, lookupA_setA_self]
      exact h
    · simp only [lookupA, if_neg h0] at h
      show lookupA (dictUpdate (setA d k0 v0) tl) k = some v
      exact ih _ _ _ hnd.2 h

theorem lookupA_dictUpdate_covered {α : Type} (d u : List (String × α))
    (hnd : (u.map Prod.fst).Nodup)
    (hcov : ∀ k ∈ d.map Prod.fst, k ∈ u.map Prod.fst) (k : String) :
    lookupA (dictUpdate d u) k = lookupA u k := by
  cases hu : lookupA u k with
  | some v => exact lookupA_dictUpdate_some u d k v hnd hu
  | none =>
    rw [lookupA_dictUpdate_none u d k hu]
    exact (lookupA_eq_none_iff d k).mpr
      (fun hk => (lookupA_eq_none_iff u k).mp hu (hcov k hk))

theorem lookupA_removeKey_self {α : Type} (d : List (String × α)) (key : String) :
    lookupA (removeKey d key) key = none := by
  induction d with
  | nil => rfl
  | cons hd tl ih =>
    obtain ⟨k0, v0⟩ := hd
    by_cases h0 : k0 = key
    · simp [removeKey, h0, ih]
    · simp [removeKey, h0, lookupA, ih]

theorem lookupA_removeKey_ne {α : Type} (d : List (String × α)) (key k2 : String)
    (h : k2 ≠ key) : lookupA (removeKey d key) k2 = lookupA d k2 := by
  induction d with
  | nil => rfl
  | cons hd tl ih =>
    obtain ⟨k0, v0⟩ := hd
    by_cases h0 : k0 = key
    · subst h0
      simp [removeKey, lookupA, Ne.symm h, ih]
    · simp [removeKey, h0, lookupA, ih]

/-! ## Claim C2: config-path resolution -/

/-- C2 counterexample: with the environment variable set to a path that is not
an existing file while the local config file exists, the code returns the env
var's value, which is not the first of the three candidates existing as a
file. -/
theorem resolve_path_counterexample :
    resolveConfigFile (some "/nope.json") "/home/u" ["./.lt_cfg.json"] = "/nope.json"
    ∧ "/nope.json" ∉ ["./.lt_cfg.json"]
    ∧ resolveConfigFileSpec (some "/nope.json") "/home/u" ["./.lt_cfg.json"]
        = "./.lt_cfg.json" := by
  decide

/-- C2 (amended): resolution checks, in order, whether the environment
variable is set — in which case its value is returned without any
file-existence check — then whether the local file exists, then whether the
home file exists, else none; in particular, with all three sources present it
returns the env var's path, with only the local and home files present the
local path, and with none present none. -/
theorem resolve_path_precedence :
    (∀ (p home : String) (files : List String),
        resolveConfigFile (some p) home files = p)
    ∧ (∀ (home : String) (files : List String), "./.lt_cfg.json" ∈ files →
        resolveConfigFile none home files = "./.lt_cfg.json")
    ∧ (∀ (home : String) (files : List String), "./.lt_cfg.json" ∉ files →
        (home ++ "/.lt_cfg.json") ∈ files →
        resolveConfigFile none home files = home ++ "/.lt_cfg.json")
    ∧ (∀ (home : String) (files : List String), "./.lt_cfg.json" ∉ files →
        (home ++ "/.lt_cfg.json") ∉ files →
        resolveConfigFile none home files = "") := by
  refine ⟨fun p home files => rfl, fun home files h => ?_,
    fun home files h1 h2 => ?_, fun home files h1 h2 => ?_⟩
  · simp [resolveConfigFile, h]
  · simp [resolveConfigFile, h1, h2]
  · simp [resolveConfigFile, h1, h2]

theorem resolve_path_precedence_witness :
    resolveConfigFile (some "/etc/lt.json") "/home/u"
        ["./.lt_cfg.json", "/home/u/.lt_cfg.json", "/etc/lt.json"] = "/etc/lt.json"
    ∧ resolveConfigFile none "/home/u" ["./.lt_cfg.json", "/home/u/.lt_cfg.json"]
        = "./.lt_cfg.json" :=
  ⟨resolve_path_precedence.1 "/etc/lt.json" "/home/u" _,
   resolve_path_precedence.2.1 "/home/u" _ (by decide)⟩

/-! ## Claim C9: empty search pattern -/

/-- C9: for every buffer (and engine and prior state), searching with the
empty pattern returns an empty match sequence, resets the current index to
-1, raises nothing, and reports the `0/0 matches` status. -/
theorem empty_pattern_resets (engine : String → TclRegex) (buf : String)
    (st : SearchState) :
    findCmd engine buf "" st
      = (none, { st with
                 search_results := []
                 current_match_index := -1
                 statusText := "0/0 matches" }) := rfl

/-! ## Claim C6: invalid search pattern -/

/-- C6: at the failing input — a pattern the regex engine rejects — `__find`
clears the match list and resets the index, but no status message is reported
(the status text stays whatever it was) and the `TclError` raised by the
widget search escapes the `except re.error` handler. -/
theorem invalid_pattern_escapes (buf : String) (st : SearchState) :
    findCmd (fun _ => TclRegex.invalid) buf "[" st
      = (some PyExc.tclError,
         { st with search_results := [], current_match_index := -1 }) := rfl

/-! ## Search-index navigation lemmas -/

theorem nextMatch_spec (st : SearchState) (h : st.search_results ≠ []) :
    (nextMatch st).current_match_index
        = (st.current_match_index + 1) % (st.search_results.length : Int)
    ∧ (nextMatch st).search_results = st.search_results := by
  cases hst : st.search_results with
  | nil => exact absurd hst h
  | cons a l => simp [nextMatch, updateSearchStatus, hst]

theorem previousMatch_spec (st : SearchState) (h : st.search_results ≠ []) :
    (previousMatch st).current_match_index
        = (st.current_match_index - 1) % (st.search_results.length : Int)
    ∧ (previousMatch st).search_results = st.search_results := by
  cases hst : st.search_results with
  | nil => exact absurd hst h
  | cons a l => simp [previousMatch, updateSearchStatus, hst]

theorem nextMatch_iterate (k : Nat) :
    ∀ (st : SearchState) (N : Nat), st.search_results.length = N → 1 ≤ N →
      0 ≤ st.current_match_index → st.current_match_index < (N : Int) →
      (nextMatch^[k] st).current_match_index
          = (st.current_match_index + (k : Int)) % (N : Int)
      ∧ (nextMatch^[k] st).search_results = st.search_results := by
  induction k with
  | zero =>
    intro st N hN h1 h0 hlt
    refine ⟨?_, rfl⟩
    simpa using (Int.emod_eq_of_lt h0 hlt).symm
  | succ k ih =>
    intro st N hN h1 h0 hlt
    rw [Function.iterate_succ_apply]
    have hne : st.search_results ≠ [] := by
      intro hh
      rw [hh] at hN
      simp at hN
      omega
    obtain ⟨hidx, hres⟩ := nextMatch_spec st hne
    rw [hN] at hidx
    have hN2 : (nextMatch st).search_results.length = N := by rw [hres, hN]
    have hpos : (0 : Int) < (N : Int) := by exact_mod_cast h1
    have h02 : 0 ≤ (nextMatch st).current_match_index := by
      rw [hidx]
      exact Int.emod_nonneg _ (ne_of_gt hpos)
    have hlt2 : (nextMatch st).current_match_index < (N : Int) := by
      rw [hidx]
      exact Int.emod_lt_of_pos _ hpos
    obtain ⟨hi, hr⟩ := ih (nextMatch st) N hN2 h1 h02 hlt2
    refine ⟨?_, by rw [hr, hres]⟩
    rw [hi, hidx, Int.emod_add_emod]
    congr 1
    push_cast
    ring

/-! ## Claim C5: cyclic next/previous navigation -/

/-- C5: with N >= 1 matches, next moves the current index to (current+1) mod N
and previous to (current-1) mod N; calling next N times from the initial
selection (index 0, the first match) returns to index 0; calling previous once
from index 0 yields N-1; with zero matches both operations leave the state
unchanged. -/
theorem search_cycling :
    (∀ st : SearchState, st.search_results ≠ [] →
        (nextMatch st).current_match_index
          = (st.current_match_index + 1) % (st.search_results.length : Int))
    ∧ (∀ st : SearchState, st.search_results ≠ [] →
        (previousMatch st).current_match_index
          = (st.current_match_index - 1) % (st.search_results.length : Int))
    ∧ (∀ st : SearchState, st.search_results ≠ [] → st.current_match_index = 0 →
        (nextMatch^[st.search_results.length] st).current_match_index = 0)
    ∧ (∀ st : SearchState, st.search_results ≠ [] → st.current_match_index = 0 →
        (previousMatch st).current_match_index
          = (st.search_results.length : Int) - 1)
    ∧ (∀ st : SearchState, st.search_results = [] →
        nextMatch st = st ∧ previousMatch st = st) := by
  refine ⟨fun st h => (nextMatch_spec st h).1,
    fun st h => (previousMatch_spec st h).1, ?_, ?_, ?_⟩
  · intro st h h0
    have h1 : 1 ≤ st.search_results.length := List.length_pos.mpr h
    obtain ⟨hi, -⟩ := nextMatch_iterate st.search_results.length st
      st.search_results.length rfl h1 (by omega) (by omega)
    rw [hi, h0]
    simp [Int.emod_self]
  · intro st h h0
    have h1 : 1 ≤ st.search_results.length := List.length_pos.mpr h
    rw [(previousMatch_spec st h).1, h0]
    have heq : (0 : Int) - 1 = ((st.search_results.length : Int) - 1)
        + (st.search_results.length : Int) * (-1) := by ring
    rw [heq, Int.add_mul_emod_self_left]
    exact Int.emod_eq_of_lt (by omega) (by omega)
  · intro st h
    exact ⟨by simp [nextMatch, h], by simp [previousMatch, h]⟩

theorem search_cycling_witness :
    (nextMatch^[2] (⟨[(0, 3), (8, 11)], 0, "1/2 matches"⟩ : SearchState)).current_match_index = 0
    ∧ (previousMatch (⟨[(0, 3), (8, 11)], 0, "1/2 matches"⟩ : SearchState)).current_match_index = 1 :=
  ⟨search_cycling.2.2.1 ⟨[(0, 3), (8, 11)], 0, "1/2 matches"⟩ (by decide) rfl,
   (search_cycling.2.2.2.1 ⟨[(0, 3), (8, 11)], 0, "1/2 matches"⟩ (by decide) rfl).trans
     (by decide)⟩

/-! ## Claim C1: match offsets and scan resumption -/

theorem findFrom_head (matchAt : Nat → Option Nat) (patLen : Nat) :
    ∀ (fuel c : Nat) (hd : Nat × Nat) (tl : List (Nat × Nat)),
      findFrom matchAt patLen fuel c = hd :: tl → matchAt c = some hd.1 := by
  intro fuel c hd tl h
  cases fuel with
  | zero => simp [findFrom] at h
  | succ fuel =>
    cases hm : matchAt c with
    | none =>
      simp only [findFrom, hm] at h
      exact List.noConfusion h
    | some s =>
      simp only [findFrom, hm] at h
      injection h with h1 h2
      rw [← h1]

theorem findFrom_mem_snd (matchAt : Nat → Option Nat) (patLen : Nat) :
    ∀ (fuel start : Nat) (p : Nat × Nat),
      p ∈ findFrom matchAt patLen fuel start → p.2 = p.1 + patLen := by
  intro fuel
  induction fuel with
  | zero => intro start p hp; simp [findFrom] at hp
  | succ fuel ih =>
    intro start p hp
    cases hm : matchAt start with
    | none => simp [findFrom, hm] at hp
    | some s =>
      simp only [findFrom, hm, List.mem_cons] at hp
      cases hp with
      | inl h => rw [h]
      | inr h => exact ih _ _ h

theorem findFrom_chain (matchAt : Nat → Option Nat) (patLen : Nat) :
    ∀ fuel start : Nat,
      List.Chain' (fun p q => matchAt p.2 = some q.1)
        (findFrom matchAt patLen fuel start) := by
  intro fuel
  induction fuel with
  | zero => intro start; simp [findFrom]
  | succ fuel ih =>
    intro start
    cases hm : matchAt start with
    | none => simp [findFrom, hm]
    | some s =>
      simp only [findFrom, hm]
      rw [List.chain'_cons']
      refine ⟨?_, ih _⟩
      intro q hq
      cases hl : findFrom matchAt patLen fuel (s + patLen) with
      | nil => rw [hl] at hq; simp at hq
      | cons hd tl =>
        rw [hl] at hq
        simp at hq
        rw [← hq]
        exact findFrom_head matchAt patLen fuel (s + patLen) hd tl hl

/-- C1: the search loop scans from offset 0 and every appended match ends at
its start plus the literal pattern-string length (whatever length the matcher
actually matched); each scan after a hit resumes exactly at that end offset
(the next match's start is what the matcher returns at the previous end, and
the first match's start is what it returns at offset 0); in particular, on
buffer "foo bar foo" with pattern "foo" the match sequence is [(0,3),(8,11)]
and after the automatic first next() the status label reports match 1 of 2. -/
theorem find_matches_pattern_length :
    (∀ (matchAt : Nat → Option Nat) (patLen fuel start : Nat) (p : Nat × Nat),
        p ∈ findFrom matchAt patLen fuel start → p.2 = p.1 + patLen)
    ∧ (∀ (matchAt : Nat → Option Nat) (patLen fuel start : Nat),
        List.Chain' (fun p q => matchAt p.2 = some q.1)
          (findFrom matchAt patLen fuel start))
    ∧ (∀ (matchAt : Nat → Option Nat) (patLen fuel : Nat) (hd : Nat × Nat)
        (tl : List (Nat × Nat)),
        findFrom matchAt patLen fuel 0 = hd :: tl → matchAt 0 = some hd.1)
    ∧ findCmd (litEngine "foo bar foo") "foo bar foo" "foo" initSearchState
        = (none, ⟨[(0, 3), (8, 11)], 0, "1/2 matches"⟩) :=
  ⟨fun matchAt patLen fuel start p hp => findFrom_mem_snd matchAt patLen fuel start p hp,
   fun matchAt patLen fuel start => findFrom_chain matchAt patLen fuel start,
   fun matchAt patLen fuel hd tl h => findFrom_head matchAt patLen fuel 0 hd tl h,
   rfl⟩

theorem find_matches_pattern_length_witness :
    ((0, 3) : Nat × Nat).2 = ((0, 3) : Nat × Nat).1 + 3 :=
  find_matches_pattern_length.1 (litMatchAt "foo bar foo" "foo") 3 12 0 (0, 3)
    (by decide)

/-! ## Claim C3: partial config file over defaults -/

/-- C3: loading a config file whose settings object sets only a subset of the
default settings keys (into the default preference set) gives those keys the
file's values and leaves every other default key of settings, cmds and
aliases (the default aliases category is empty) at its hard-coded default. -/
theorem load_subset_keeps_defaults (u : List (String × JVal))
    (hnd : (u.map Prod.fst).Nodup)
    (_hsub : ∀ k ∈ u.map Prod.fst, k ∈ defaultSettings.map Prod.fst) :
    (loadRun [("/cfg.json", FileContent.ok [("settings", JVal.obj u)])] "/cfg.json"
        ⟨"/cfg.json", defaultPrefs⟩).1 = Except.ok ()
    ∧ (∀ k v, lookupA u k = some v →
        catLookup (loadRun [("/cfg.json", FileContent.ok [("settings", JVal.obj u)])]
          "/cfg.json" ⟨"/cfg.json", defaultPrefs⟩).2.prefs "settings" k = some v)
    ∧ (∀ k, lookupA u k = none →
        catLookup (loadRun [("/cfg.json", FileContent.ok [("settings", JVal.obj u)])]
          "/cfg.json" ⟨"/cfg.json", defaultPrefs⟩).2.prefs "settings" k
          = lookupA defaultSettings k)
    ∧ (∀ k, catLookup (loadRun [("/cfg.json", FileContent.ok [("settings", JVal.obj u)])]
          "/cfg.json" ⟨"/cfg.json", defaultPrefs⟩).2.prefs "cmds" k
          = lookupA defaultCmds k)
    ∧ (∀ k, catLookup (loadRun [("/cfg.json", FileContent.ok [("settings", JVal.obj u)])]
          "/cfg.json" ⟨"/cfg.json", defaultPrefs⟩).2.prefs "aliases" k = none) := by
  have hres : (loadRun [("/cfg.json", FileContent.ok [("settings", JVal.obj u)])]
      "/cfg.json" ⟨"/cfg.json", defaultPrefs⟩)
      = (Except.ok (), ⟨"/cfg.json",
          [("aliases", JVal.obj []),
           ("cmds", JVal.obj defaultCmds),
           ("settings", JVal.obj (dictUpdate defaultSettings u)),
           ("config_file", JVal.str "/cfg.json")]⟩) := rfl
  rw [hres]
  refine ⟨rfl, ?_, ?_, fun k => rfl, fun k => rfl⟩
  · intro k v hkv
    show lookupA (dictUpdate defaultSettings u) k = some v
    exact lookupA_dictUpdate_some u defaultSettings k v hnd hkv
  · intro k hk
    show lookupA (dictUpdate defaultSettings u) k = lookupA defaultSettings k
    exact lookupA_dictUpdate_none u defaultSettings k hk

theorem load_subset_keeps_defaults_witness :
    catLookup (loadRun [("/cfg.json", FileContent.ok
        [("settings", JVal.obj [("Window geometry", JVal.str "1024x768")])])]
      "/cfg.json" ⟨"/cfg.json", defaultPrefs⟩).2.prefs "settings" "Window geometry"
      = some (JVal.str "1024x768")
    ∧ catLookup (loadRun [("/cfg.json", FileContent.ok
        [("settings", JVal.obj [("Window geometry", JVal.str "1024x768")])])]
      "/cfg.json" ⟨"/cfg.json", defaultPrefs⟩).2.prefs "settings"
        "Save window geometry on exit" = some (JVal.bool true) := by
  have h := load_subset_keeps_defaults [("Window geometry", JVal.str "1024x768")]
    (by simp) (by decide)
  exact ⟨h.2.1 "Window geometry" (JVal.str "1024x768") rfl,
    (h.2.2.1 "Save window geometry on exit" rfl).trans rfl⟩

/-! ## Claim C10: failed load leaves preferences untouched -/

/-- C10: whenever load fails — the file cannot be read, or its content is not
valid JSON — the in-memory state after the call is exactly the state before
it: both failure points precede every mutation of the preferences. -/
theorem load_failure_preserves_state (fs : FS) (path : String) (st : CfgState)
    (e : LoadErr) (h : (loadRun fs path st).1 = Except.error e) :
    (loadRun fs path st).2 = st := by
  cases hl : lookupA fs path with
  | none => simp [loadRun, hl]
  | some c =>
    cases c with
    | invalid => simp [loadRun, hl]
    | ok cfg =>
      simp only [loadRun, hl] at h
      simp at h

theorem load_failure_preserves_state_witness :
    (loadRun [] "/missing.json" ⟨"", defaultPrefs⟩).2 = ⟨"", defaultPrefs⟩
    ∧ (loadRun [("/bad.json", FileContent.invalid)] "/bad.json"
        ⟨"/bad.json", defaultPrefs⟩).2 = ⟨"/bad.json", defaultPrefs⟩ :=
  ⟨load_failure_preserves_state [] "/missing.json" ⟨"", defaultPrefs⟩
     LoadErr.ioError rfl,
   load_failure_preserves_state [("/bad.json", FileContent.invalid)] "/bad.json"
     ⟨"/bad.json", defaultPrefs⟩ LoadErr.parseError rfl⟩

/-! ## Claim C7: command-runner error reporting -/

/-- C7: a non-zero exit appends to the output text, after the streamed lines,
an error line carrying the command and the exit code, and raises nothing; a
clean exit appends only the lines; at the failing input — a command whose
launch raises, e.g. an executable that is not found — no error line is
appended and an AttributeError escapes `__run`, because the handler body
reads attributes the raised exception does not have. -/
theorem run_failure_reporting :
    (∀ (lines cmd : List String) (rc : Int) (ta : String), rc ≠ 0 →
        runCmd (ProcOutcome.launched lines rc) cmd ta
          = (none, ta ++ String.join lines ++ cpeMessage cmd rc))
    ∧ (∀ (lines cmd : List String) (ta : String),
        runCmd (ProcOutcome.launched lines 0) cmd ta
          = (none, ta ++ String.join lines))
    ∧ (∀ (excText : String) (cmd : List String) (ta : String),
        runCmd (ProcOutcome.launchError excText) cmd ta
          = (some PyExc.attributeError, ta)) := by
  refine ⟨fun lines cmd rc ta h => ?_, fun lines cmd ta => rfl, fun e cmd ta => rfl⟩
  simp [runCmd, h]

theorem run_failure_reporting_witness :
    runCmd (ProcOutcome.launched ["Plan failed\n"] 1) ["terraform", "plan"] ""
      = (none, "" ++ String.join ["Plan failed\n"]
          ++ cpeMessage ["terraform", "plan"] 1) :=
  run_failure_reporting.1 ["Plan failed\n"] ["terraform", "plan"] 1 "" (by decide)

/-! ## Claim C8: update semantics -/

theorem updatePrefs_single_eq_setA (prefs : List (String × JVal)) (k : String)
    (v : JVal) : ∃ w, updatePrefs prefs [(k, v)] = setA prefs k w := by
  cases hd : lookupA prefs k with
  | none => exact ⟨v, by simp [updatePrefs, hd]⟩
  | some j =>
    cases j with
    | str s => exact ⟨v, by simp [updatePrefs, hd]⟩
    | bool b => exact ⟨v, by simp [updatePrefs, hd]⟩
    | obj d =>
      cases v with
      | str s => exact ⟨JVal.str s, by simp [updatePrefs, hd]⟩
      | bool b => exact ⟨JVal.bool b, by simp [updatePrefs, hd]⟩
      | obj u => exact ⟨JVal.obj (dictUpdate d u), by simp [updatePrefs, hd]⟩

/-- C8: update processes each key of the partial: when both the existing and
the new value are dictionaries the existing one is shallow-merged with the
partial's (keys from the partial win, every other existing key is untouched);
in every other shape combination the value is replaced, or added when absent;
top-level keys not named by the partial are untouched; and the file system is
written exactly when the save flag is set. -/
theorem update_merge_semantics (prefs : List (String × JVal)) (k : String)
    (v : JVal) :
    (∀ d u : List (String × JVal),
        lookupA prefs k = some (JVal.obj d) → v = JVal.obj u →
        lookupA (updatePrefs prefs [(k, v)]) k = some (JVal.obj (dictUpdate d u))
        ∧ (∀ k2 w, (u.map Prod.fst).Nodup → lookupA u k2 = some w →
            lookupA (dictUpdate d u) k2 = some w)
        ∧ (∀ k2, lookupA u k2 = none →
            lookupA (dictUpdate d u) k2 = lookupA d k2))
    ∧ (lookupA prefs k = none → lookupA (updatePrefs prefs [(k, v)]) k = some v)
    ∧ (∀ s, lookupA prefs k = some (JVal.str s) →
        lookupA (updatePrefs prefs [(k, v)]) k = some v)
    ∧ (∀ b, lookupA prefs k = some (JVal.bool b) →
        lookupA (updatePrefs prefs [(k, v)]) k = some v)
    ∧ (∀ s, v = JVal.str s → lookupA (updatePrefs prefs [(k, v)]) k = some v)
    ∧ (∀ b, v = JVal.bool b → lookupA (updatePrefs prefs [(k, v)]) k = some v)
    ∧ (∀ k2, k2 ≠ k → lookupA (updatePrefs prefs [(k, v)]) k2 = lookupA prefs k2)
    ∧ (∀ (home : String) (st : CfgState) (updates : List (String × JVal)) (fs : FS),
        (updateRun home st updates false fs).2 = fs
        ∧ (updateRun home st updates true fs).2
            = setA fs (savePath home st.config_file)
                (FileContent.ok (saveDoc (updatePrefs st.prefs updates)))) := by
  refine ⟨?_, ?_, ?_, ?_, ?_, ?_, ?_, fun home st updates fs => ⟨rfl, rfl⟩⟩
  · intro d u hd hv
    subst hv
    have hres : updatePrefs prefs [(k, JVal.obj u)]
        = setA prefs k (JVal.obj (dictUpdate d u)) := by
      simp [updatePrefs, hd]
    refine ⟨by rw [hres]; exact lookupA_setA_self prefs k _, ?_, ?_⟩
    · intro k2 w hnd hw
      exact lookupA_dictUpdate_some u d k2 w hnd hw
    · intro k2 hk2
      exact lookupA_dictUpdate_none u d k2 hk2
  · intro hd
    have hres : updatePrefs prefs [(k, v)] = setA prefs k v := by
      simp [updatePrefs, hd]
    rw [hres]
    exact lookupA_setA_self prefs k v
  · intro s hd
    have hres : updatePrefs prefs [(k, v)] = setA prefs k v := by
      simp [updatePrefs, hd]
    rw [hres]
    exact lookupA_setA_self prefs k v
  · intro b hd
    have hres : updatePrefs prefs [(k, v)] = setA prefs k v := by
      simp [updatePrefs, hd]
    rw [hres]
    exact lookupA_setA_self prefs k v
  · intro s hv
    subst hv
    have hres : updatePrefs prefs [(k, JVal.str s)] = setA prefs k (JVal.str s) := by
      cases hd : lookupA prefs k with
      | none => simp [updatePrefs, hd]
      | some j => cases j <;> simp [updatePrefs, hd]
    rw [hres]
    exact lookupA_setA_self prefs k _
  · intro b hv
    subst hv
    have hres : updatePrefs prefs [(k, JVal.bool b)] = setA prefs k (JVal.bool b) := by
      cases hd : lookupA prefs k with
      | none => simp [updatePrefs, hd]
      | some j => cases j <;> simp [updatePrefs, hd]
    rw [hres]
    exact lookupA_setA_self prefs k _
  · intro k2 hk2
    obtain ⟨w, hw⟩ := updatePrefs_single_eq_setA prefs k v
    rw [hw]
    exact lookupA_setA_ne prefs k k2 w hk2

theorem update_merge_semantics_witness :
    lookupA (updatePrefs defaultPrefs
        [("settings", JVal.obj [("Window geometry", JVal.str "1280x720")])]) "settings"
      = some (JVal.obj (dictUpdate defaultSettings
          [("Window geometry", JVal.str "1280x720")])) :=
  ((update_merge_semantics defaultPrefs "settings"
      (JVal.obj [("Window geometry", JVal.str "1280x720")])).1 defaultSettings
      [("Window geometry", JVal.str "1280x720")] rfl rfl).1

/-! ## Claim C4: save/load round trip -/

/-- C4 counterexample: the round trip is not the identity for every preference
mapping.  For a mapping whose settings object is empty, saving and loading
back into the default preference set resurrects the default settings keys:
after the round trip "Save window geometry on exit" is `true`, while the
original mapping does not bind it at all. -/
theorem save_load_round_trip_counterexample :
    catLookup (loadRun (saveRun "/home/u" ⟨"/cfg.json",
        [("aliases", JVal.obj []), ("cmds", JVal.obj defaultCmds),
         ("settings", JVal.obj [])]⟩ []).2 "/cfg.json"
      ⟨"/cfg.json", defaultPrefs⟩).2.prefs "settings" "Save window geometry on exit"
      = some (JVal.bool true)
    ∧ catLookup [("aliases", JVal.obj []), ("cmds", JVal.obj defaultCmds),
        ("settings", JVal.obj [])] "settings" "Save window geometry on exit"
      = none :=
  ⟨rfl, rfl⟩

/-- C4 (amended): for every preference mapping whose settings, cmds and
aliases categories are objects that bind (at least) every corresponding
default key, saving to a path and then loading that path into the default
preference set reproduces a pointwise-equal mapping for the three categories;
and for every preference mapping whatsoever the `config_file` bookkeeping key
is never written to the file. -/
theorem save_load_round_trip (home cf : String) (hcf : cf ≠ "")
    (st : CfgState) (hst : st.config_file = cf)
    (s c a : List (String × JVal))
    (hs : lookupA st.prefs "settings" = some (JVal.obj s))
    (hc : lookupA st.prefs "cmds" = some (JVal.obj c))
    (ha : lookupA st.prefs "aliases" = some (JVal.obj a))
    (hsn : (s.map Prod.fst).Nodup) (hcn : (c.map Prod.fst).Nodup)
    (han : (a.map Prod.fst).Nodup)
    (hss : ∀ k ∈ defaultSettings.map Prod.fst, k ∈ s.map Prod.fst)
    (hcs : ∀ k ∈ defaultCmds.map Prod.fst, k ∈ c.map Prod.fst)
    (fs : FS) :
    (∀ prefs : List (String × JVal), lookupA (saveDoc prefs) "config_file" = none)
    ∧ (loadRun (saveRun home st fs).2 cf ⟨cf, defaultPrefs⟩).1 = Except.ok ()
    ∧ (∀ k, catLookup (loadRun (saveRun home st fs).2 cf
        ⟨cf, defaultPrefs⟩).2.prefs "settings" k = lookupA s k)
    ∧ (∀ k, catLookup (loadRun (saveRun home st fs).2 cf
        ⟨cf, defaultPrefs⟩).2.prefs "cmds" k = lookupA c k)
    ∧ (∀ k, catLookup (loadRun (saveRun home st fs).2 cf
        ⟨cf, defaultPrefs⟩).2.prefs "aliases" k = lookupA a k) := by
  have hsp : savePath home st.config_file = cf := by
    rw [hst]
    simp [savePath, hcf]
  have hsave : (saveRun home st fs).2
      = setA fs cf (FileContent.ok (saveDoc st.prefs)) := by
    simp only [saveRun]
    rw [hsp]
  have hdocS : lookupA (saveDoc st.prefs) "settings" = some (JVal.obj s) := by
    rw [saveDoc, lookupA_removeKey_ne _ _ _ (by decide)]
    exact hs
  have hdocC : lookupA (saveDoc st.prefs) "cmds" = some (JVal.obj c) := by
    rw [saveDoc, lookupA_removeKey_ne _ _ _ (by decide)]
    exact hc
  have hdocA : lookupA (saveDoc st.prefs) "aliases" = some (JVal.obj a) := by
    rw [saveDoc, lookupA_removeKey_ne _ _ _ (by decide)]
    exact ha
  have hm1 : mergeCat defaultPrefs (saveDoc st.prefs) "settings"
      = [("aliases", JVal.obj []), ("cmds", JVal.obj defaultCmds),
         ("settings", JVal.obj (dictUpdate defaultSettings s))] := by
    simp only [mergeCat, hdocS]
    rfl
  have hm2 : mergeCat [("aliases", JVal.obj []), ("cmds", JVal.obj defaultCmds),
        ("settings", JVal.obj (dictUpdate defaultSettings s))]
      (saveDoc st.prefs) "cmds"
      = [("aliases", JVal.obj []), ("cmds", JVal.obj (dictUpdate defaultCmds c)),
         ("settings", JVal.obj (dictUpdate defaultSettings s))] := by
    simp only [mergeCat, hdocC]
    rfl
  have hm3 : mergeCat [("aliases", JVal.obj []),
        ("cmds", JVal.obj (dictUpdate defaultCmds c)),
        ("settings", JVal.obj (dictUpdate defaultSettings s))]
      (saveDoc st.prefs) "aliases"
      = [("aliases", JVal.obj (dictUpdate [] a)),
         ("cmds", JVal.obj (dictUpdate defaultCmds c)),
         ("settings", JVal.obj (dictUpdate defaultSettings s))] := by
    simp only [mergeCat, hdocA]
    rfl
  have hload : loadRun (saveRun home st fs).2 cf ⟨cf, defaultPrefs⟩
      = (Except.ok (), ⟨cf,
          [("aliases", JVal.obj (dictUpdate [] a)),
           ("cmds", JVal.obj (dictUpdate defaultCmds c)),
           ("settings", JVal.obj (dictUpdate defaultSettings s)),
           ("config_file", JVal.str cf)]⟩) := by
    simp only [loadRun, hsave, lookupA_setA_self]
    rw [hm1, hm2, hm3]
    rfl
  rw [hload]
  refine ⟨fun prefs => lookupA_removeKey_self prefs "config_file", rfl, ?_, ?_, ?_⟩
  · intro k
    show lookupA (dictUpdate defaultSettings s) k = lookupA s k
    exact lookupA_dictUpdate_covered defaultSettings s hsn hss k
  · intro k
    show lookupA (dictUpdate defaultCmds c) k = lookupA c k
    exact lookupA_dictUpdate_covered defaultCmds c hcn hcs k
  · intro k
    show lookupA (dictUpdate [] a) k = lookupA a k
    exact lookupA_dictUpdate_covered [] a han (by simp) k

theorem save_load_round_trip_witness :
    catLookup (loadRun (saveRun "/home/u" ⟨"/cfg.json", defaultPrefs⟩ []).2
        "/cfg.json" ⟨"/cfg.json", defaultPrefs⟩).2.prefs "settings" "Window geometry"
      = lookupA defaultSettings "Window geometry" :=
  (save_load_round_trip "/home/u" "/cfg.json" (by decide) ⟨"/cfg.json", defaultPrefs⟩
    rfl defaultSettings defaultCmds [] rfl rfl rfl (by decide) (by decide) (by decide)
    (by decide) (by decide) []).2.2.1 "Window geometry"
